import Mathlib

/-!
Shallow embedding of the mesh-import core in
`src/COLLADAMaya/src/COLLADAMayaGeometryImporter.cpp` (namespace
`COLLADAMaya`, class `GeometryImporter`), together with proofs about the
hole-orientation resolver, the hole flip, edge-index resolution, the
triangle-fan and triangle-strip decoders, the uv/color attribute slicer,
instance handling and the object-group partition.

Machine arithmetic: `size_t` values are modelled as `Nat`; the one place
where a `size_t` subtraction can wrap (the strip decoder's group-boundary
`uvSetIndicesIndex -= 2`) is modelled with an explicit `% 2 ^ 64`, and the
`unsigned - size_t` subtraction stored into an `int` in the attribute
slicer is modelled with explicit `% 2 ^ 64` / `% 2 ^ 32` wrapping.
Vertex positions are `double` in the C++ code; the embedding uses exact
rationals, which preserves the algebraic content of the orientation test
while floating-point rounding is not modelled.
-/

/-- Modelled from the spec: `COLLADABU::Math::Vector3` (the COLLADABU math
library is part of the repository but not under `src/`).  A 3-dimensional
vector with exact rational coordinates standing in for `double`. -/
structure BUVector3 where
  x : ℚ
  y : ℚ
  z : ℚ
deriving DecidableEq

instance : Inhabited BUVector3 :=
  ⟨⟨0, 0, 0⟩⟩

instance : Sub BUVector3 :=
  ⟨fun a b => ⟨a.x - b.x, a.y - b.y, a.z - b.z⟩⟩

/-- Modelled from the spec: `COLLADABU::Math::Vector3::crossProduct`, the
standard cross product used for the polygon winding normal
(`normal = (p1-p0) × (p2-p0)`). -/
def BUVector3.crossProduct (a b : BUVector3) : BUVector3 :=
  ⟨a.y * b.z - a.z * b.y, a.z * b.x - a.x * b.z, a.x * b.y - a.y * b.x⟩

/-- Modelled from the spec: `COLLADABU::Math::Vector3::dotProduct`, the
standard dot product. -/
def BUVector3.dotProduct (a b : BUVector3) : ℚ :=
  a.x * b.x + a.y * b.y + a.z * b.z

/-- `GeometryImporter::changeHoleOrientation` (source lines 1173-1198).
Computes the cross product of the parent polygon's first two edge vectors
and of the hole's first two edge vectors, and reports that the hole must be
flipped exactly when the dot product of the two cross products is positive.
Both callers pass vectors holding exactly the first three vertex positions
of the respective boundary; the C++ code indexes positions `[0]`, `[1]`,
`[2]` unchecked, embedded here with `List.getD`. -/
def changeHoleOrientation (polygonPoints holePoints : List BUVector3) : Bool :=
  let p1 := polygonPoints.getD 1 default - polygonPoints.getD 0 default
  let p2 := polygonPoints.getD 2 default - polygonPoints.getD 0 default
  let polyCrossProduct := p1.crossProduct p2
  let h1 := holePoints.getD 1 default - holePoints.getD 0 default
  let h2 := holePoints.getD 2 default - holePoints.getD 0 default
  let holeCrossProduct := h1.crossProduct h2
  if polyCrossProduct.dotProduct holeCrossProduct > 0 then true else false

/-- `GeometryImporter::changePolyFaceHoleOrientation` (source lines
1201-1221).  The C++ loop walks `edgeIdValue[numEdges-1] .. edgeIdValue[0]`,
pushing `(edgeIndexValue + 1) * (-1)` into `valueVec`, then copies
`valueVec` back over the hole's edge list; as a list transformation this is
reversal composed with the elementwise sign toggle. -/
def changePolyFaceHoleOrientation (holeEdges : List Int) : List Int :=
  holeEdges.reverse.map (fun edgeIndexValue => (edgeIndexValue + 1) * (-1))

/-- Modelled from the spec: `COLLADAFW::Edge` (its header is not under
`src/`) canonicalizes an undirected vertex pair so that equal undirected
pairs compare equal in the `std::map` key order; the canonical storage
keeps the smaller index first. -/
def edgeCanonical (a b : Nat) : Nat × Nat :=
  if b < a then (b, a) else (a, b)

/-- Modelled from the spec: `COLLADAFW::Edge::isReverse` reports whether the
queried direction `(a, b)` is opposite to the canonically stored
direction. -/
def edgeIsReverse (a b : Nat) : Bool :=
  decide (b < a)

/-- Lookup in the edge-index map (`std::map<COLLADAFW::Edge, size_t>`),
embedded as an association list from canonical edges to their dense
insertion indices. -/
def edgeMapFind (edgeIndicesMap : List ((Nat × Nat) × Nat)) (e : Nat × Nat) : Option Nat :=
  (edgeIndicesMap.find? (fun entry => entry.fst == e)).map (fun entry => entry.snd)

/-- `GeometryImporter::getEdgeIndex` (source lines 1264-1283).  A missing
edge trips the function's internal-consistency assertion (`assert ( it !=
edgeIndicesMap.end() )` after an error diagnostic): the conversion aborts
and no edge reference is produced, embedded as `none`.  On a hit the stored
index `i` is returned, negated to `-(i+1)` when the queried direction is
the reverse of the stored one. -/
def getEdgeIndex (edgeIndicesMap : List ((Nat × Nat) × Nat)) (a b : Nat) : Option Int :=
  match edgeMapFind edgeIndicesMap (edgeCanonical a b) with
  | none => none
  | some i => some (if edgeIsReverse a b then -((i : Int) + 1) else (i : Int))

/-- Resolution of one boundary's edge list: every decoder calls
`getEdgeIndex` once per formed edge and stores the signed result into the
face being built, so a face is only emitted when every one of its edges
resolves; a fatal lookup miss on any edge aborts the face. -/
def resolveFaceEdges (edgeIndicesMap : List ((Nat × Nat) × Nat)) :
    List (Nat × Nat) → Option (List Int)
  | [] => some []
  | e :: rest =>
    match getEdgeIndex edgeIndicesMap e.fst e.snd with
    | none => none
    | some v =>
      match resolveFaceEdges edgeIndicesMap rest with
      | none => none
      | some vs => some (v :: vs)

/-- Reinterpretation of a 64-bit unsigned value as the 32-bit signed `int`
it is stored into (`polyFace.mu[i].uvIdValue[j]` is an `int`). -/
def toSigned32 (n : Nat) : Int :=
  if n % 2 ^ 32 < 2 ^ 31 then ((n % 2 ^ 32 : Nat) : Int)
  else ((n % 2 ^ 32 : Nat) : Int) - 2 ^ 32

/-- The adjusted attribute index of `setUVSetInfos` / `setColorInfos`
(source lines 1095 and 1132): `currentIndex - initialIndex` computed as an
unsigned 64-bit subtraction and stored into an `int`. -/
def uvIdValue (currentIndex initialIndex : Nat) : Int :=
  toSigned32 ((currentIndex % 2 ^ 64 + (2 ^ 64 - initialIndex % 2 ^ 64)) % 2 ^ 64)

/-- One uv (or color) channel of a primitive: the raw index stream
(`COLLADAFW::IndexList::getIndex`) and its declared initial index
(`COLLADAFW::IndexList::getInitialIndex`). -/
structure IndexList where
  indices : List Nat
  initialIndex : Nat
deriving DecidableEq

/-- `GeometryImporter::setUVSetInfos` (source lines 1066-1100; the color
variant `setColorInfos`, lines 1103-1137, has the identical cursor
arithmetic).  All channels of the primitive are sliced with the one shared
cursor `uvSetIndicesIndex`: channel values at stream positions
`j + uvSetIndicesIndex` for `j < numEdges`, each adjusted by the channel's
declared initial index, and the cursor is advanced by `numEdges` exactly
once. -/
def setUVSetInfos (uvSets : List IndexList) (uvSetIndicesIndex : Nat) (numEdges : Nat) :
    List (List Int) × Nat :=
  (uvSets.map (fun indexList =>
      (List.range numEdges).map (fun j =>
        uvIdValue (indexList.indices.getD (j + uvSetIndicesIndex) 0) indexList.initialIndex)),
   uvSetIndicesIndex + numEdges)

/-- One emitted triangle record of the fan/strip decoders: the directed
vertex pairs handed to the `COLLADAFW::Edge` constructor (whose signed
resolution is `getEdgeIndex`, proved separately), plus the value of the
shared uv cursor and of the shared color cursor at the moment
`setUVSetInfos` / `setColorInfos` are called for this face.  The fan and
strip decoders never write hole data (`polyFace.h` stays empty). -/
structure TriFace where
  edges : List (Nat × Nat)
  uvStart : Nat
  colorStart : Nat
deriving DecidableEq

/-- The mutable locals of `appendTrifansPolyFaces` /
`appendTristripsPolyFaces` together with the list of faces appended so far
(`meshNode.appendFace`). -/
structure PolyFacesState where
  positionIndex : Nat
  initialPositionIndex : Nat
  uvSetIndicesIndex : Nat
  colorIndicesIndex : Nat
  faces : List TriFace
deriving DecidableEq

/-- Unsigned 64-bit decrement by two: `size_t` arithmetic of the strip
decoder's group-boundary `uvSetIndicesIndex -= 2` (source lines 870-871),
which can wrap below zero. -/
def sizeTSub2 (a : Nat) : Nat :=
  (a + (2 ^ 64 - 2)) % 2 ^ 64

/-- Inner edge loop of `GeometryImporter::appendTrifansPolyFaces` (source
lines 714-765), one recursive step per iteration of
`for (edgeIndex = 0; edgeIndex < numEdges; ++edgeIndex)`.  The first two
arguments after the stream are `triangleEdgeCounter` and the edge array of
the face under construction; when the third edge of a triangle completes,
the face is emitted, `positionIndex` steps back by one, and the uv/color
cursors advance by 3 inside `setUVSetInfos` / `setColorInfos` and are then
rewound by 2. -/
def trifanEdgeLoop (positionIndices : List Nat) :
    Nat → Nat → List (Nat × Nat) → PolyFacesState → PolyFacesState
  | 0, _, _, st => st
  | numEdgesRemaining + 1, triangleEdgeCounter0, currentEdges0, st =>
    let currentEdges1 := if triangleEdgeCounter0 = 0 then [] else currentEdges0
    let triangleEdgeCounter := triangleEdgeCounter0 + 1
    let edgeStartVtxIndex :=
      if 1 < triangleEdgeCounter then positionIndices.getD st.positionIndex 0
      else positionIndices.getD st.initialPositionIndex 0
    let positionIndex1 :=
      if triangleEdgeCounter < 3 then st.positionIndex + 1 else st.positionIndex
    let edgeEndVtxIndex :=
      if triangleEdgeCounter < 3 then positionIndices.getD positionIndex1 0
      else positionIndices.getD st.initialPositionIndex 0
    let currentEdges := currentEdges1 ++ [(edgeStartVtxIndex, edgeEndVtxIndex)]
    if triangleEdgeCounter = 3 then
      trifanEdgeLoop positionIndices numEdgesRemaining 0 []
        { st with
          positionIndex := positionIndex1 - 1,
          uvSetIndicesIndex := st.uvSetIndicesIndex + 3 - 2,
          colorIndicesIndex := st.colorIndicesIndex + 3 - 2,
          faces := st.faces ++
            [⟨currentEdges, st.uvSetIndicesIndex, st.colorIndicesIndex⟩] }
    else
      trifanEdgeLoop positionIndices numEdgesRemaining triangleEdgeCounter currentEdges
        { st with positionIndex := positionIndex1 }

/-- `GeometryImporter::appendTrifansPolyFaces` (source lines 678-774): for
every grouped-vertices element of `vertexCount` fan vertices the edge loop
runs `(vertexCount - 3) * 3 + 3` iterations, after which `positionIndex`
advances by 2, `initialPositionIndex` by `vertexCount`, and the uv/color
cursors by 2. -/
def appendTrifansPolyFaces (positionIndices : List Nat) (vertexCountArray : List Nat) :
    PolyFacesState :=
  vertexCountArray.foldl
    (fun st vertexCount =>
      let numEdges := (vertexCount - 3) * 3 + 3
      let st1 := trifanEdgeLoop positionIndices numEdges 0 [] st
      { st1 with
        positionIndex := st1.positionIndex + 2,
        initialPositionIndex := st1.initialPositionIndex + vertexCount,
        uvSetIndicesIndex := st1.uvSetIndicesIndex + 2,
        colorIndicesIndex := st1.colorIndicesIndex + 2 })
    ⟨0, 0, 0, 0, []⟩

/-- Inner edge loop of `GeometryImporter::appendTristripsPolyFaces` (source
lines 814-864).  It differs from the fan loop in two places: the edge start
vertex is always read at `positionIndex`, and when a triangle completes
`initialPositionIndex` is reset to the decremented `positionIndex`. -/
def tristripEdgeLoop (positionIndices : List Nat) :
    Nat → Nat → List (Nat × Nat) → PolyFacesState → PolyFacesState
  | 0, _, _, st => st
  | numEdgesRemaining + 1, triangleEdgeCounter0, currentEdges0, st =>
    let currentEdges1 := if triangleEdgeCounter0 = 0 then [] else currentEdges0
    let triangleEdgeCounter := triangleEdgeCounter0 + 1
    let edgeStartVtxIndex := positionIndices.getD st.positionIndex 0
    let positionIndex1 :=
      if triangleEdgeCounter < 3 then st.positionIndex + 1 else st.positionIndex
    let edgeEndVtxIndex :=
      if triangleEdgeCounter < 3 then positionIndices.getD positionIndex1 0
      else positionIndices.getD st.initialPositionIndex 0
    let currentEdges := currentEdges1 ++ [(edgeStartVtxIndex, edgeEndVtxIndex)]
    if triangleEdgeCounter = 3 then
      tristripEdgeLoop positionIndices numEdgesRemaining 0 []
        { st with
          positionIndex := positionIndex1 - 1,
          initialPositionIndex := positionIndex1 - 1,
          uvSetIndicesIndex := st.uvSetIndicesIndex + 3 - 2,
          colorIndicesIndex := st.colorIndicesIndex + 3 - 2,
          faces := st.faces ++
            [⟨currentEdges, st.uvSetIndicesIndex, st.colorIndicesIndex⟩] }
    else
      tristripEdgeLoop positionIndices numEdgesRemaining triangleEdgeCounter currentEdges
        { st with positionIndex := positionIndex1 }

/-- `GeometryImporter::appendTristripsPolyFaces` (source lines 777-873):
after each vertex group `positionIndex` advances by 2,
`initialPositionIndex` is reset to it, and the uv/color cursors are
decremented by 2 in `size_t` arithmetic. -/
def appendTristripsPolyFaces (positionIndices : List Nat) (vertexCountArray : List Nat) :
    PolyFacesState :=
  vertexCountArray.foldl
    (fun st vertexCount =>
      let numEdges := (vertexCount - 3) * 3 + 3
      let st1 := tristripEdgeLoop positionIndices numEdges 0 [] st
      { st1 with
        positionIndex := st1.positionIndex + 2,
        initialPositionIndex := st1.positionIndex + 2,
        uvSetIndicesIndex := sizeTSub2 st1.uvSetIndicesIndex,
        colorIndicesIndex := sizeTSub2 st1.colorIndicesIndex })
    ⟨0, 0, 0, 0, []⟩

/-- What one occurrence of a geometry in the scene produces: the first
occurrence creates the mesh node with the full geometry payload
(`createMesh`), every later occurrence only emits a `parentShape`
connection to the already created mesh. -/
inductive MeshEmission where
  | primaryEmission : MeshEmission
  | secondaryReference : MeshEmission
deriving DecidableEq

/-- `GeometryImporter::importMesh` (source lines 82-131): the loop over the
transform nodes instancing the geometry calls `createMesh` exactly for the
iterator equal to `transformNodes->begin()` and `MayaDM::parentShape` for
every other occurrence, in occurrence order. -/
def importMesh (transformNodes : List Nat) : List MeshEmission :=
  match transformNodes with
  | [] => []
  | _ :: rest =>
    MeshEmission.primaryEmission :: rest.map (fun _ => MeshEmission.secondaryReference)

/-- `GeometryImporter::importGeometry` (source lines 49-79): when
`findMayaMeshNode (geometryId)` already yields a node the function returns
immediately and nothing is emitted; otherwise a mesh-typed geometry is
handed to `importMesh`. -/
def importGeometry (alreadyImported : Bool) (transformNodes : List Nat) : List MeshEmission :=
  if alreadyImported then [] else importMesh transformNodes

/-- Inner loop of `GeometryImporter::writeObjectGroups` (source lines
260-288) for one instance: walking the primitives, each one contributes the
face-index range `f[initialFaceIndex : numFaces - 1 + initialFaceIndex]`
and advances `initialFaceIndex` by its `getGroupedVertexElementsCount`. -/
def objectGroupRanges (initialFaceIndex : Nat) : List Nat → List (Nat × Nat)
  | [] => []
  | numFaces :: rest =>
    (initialFaceIndex, numFaces - 1 + initialFaceIndex) ::
      objectGroupRanges (initialFaceIndex + numFaces) rest

/-- `GeometryImporter::writeObjectGroups` (source lines 238-290): with at
most one primitive nothing is written; otherwise every one of the
`numNodeInstances` instances receives the same per-primitive face-range
component lists, each instance's ranges restarting at face index 0. -/
def writeObjectGroups (groupedElementCounts : List Nat) (numNodeInstances : Nat) :
    List (List (Nat × Nat)) :=
  if groupedElementCounts.length ≤ 1 then []
  else (List.range numNodeInstances).map (fun _ => objectGroupRanges 0 groupedElementCounts)

/-- `GeometryImporter::createGroupNodes` (source lines 134-161): with at
most one primitive no group ids are created; otherwise one group-id
assignment `(geometryInstanceIndex, primitiveIndex)` is recorded per
primitive. -/
def createGroupNodes (meshPrimitivesCount : Nat) (geometryInstanceIndex : Nat) :
    List (Nat × Nat) :=
  if meshPrimitivesCount ≤ 1 then []
  else (List.range meshPrimitivesCount).map (fun primitiveIndex =>
    (geometryInstanceIndex, primitiveIndex))

/-- Claim C1: for every parent polygon and hole, each given by the positions
of its first three vertices, the hole-orientation test computes the parent
normal as `(p1-p0) × (p2-p0)` and the hole normal as `(h1-h0) × (h2-h0)`,
and returns true (hole must be flipped) exactly when the dot product of the
two normals is strictly greater than 0. -/
theorem changeHoleOrientation_iff_dot_pos (p0 p1 p2 h0 h1 h2 : BUVector3) :
    changeHoleOrientation [p0, p1, p2] [h0, h1, h2] = true ↔
      ((p1 - p0).crossProduct (p2 - p0)).dotProduct
        ((h1 - h0).crossProduct (h2 - h0)) > 0 := by
  simp only [changeHoleOrientation, List.getD_cons_zero, List.getD_cons_succ]
  split <;> simp_all

/-- Claim C2: flipping a hole edge-reference list of length n produces the
list in exactly reversed order with every reference's sign toggled by
`v ↦ -(v+1)`: position `j` of the output equals `-(e[n-1-j] + 1)`. -/
theorem changePolyFaceHoleOrientation_entry (holeEdges : List Int) (j : Nat)
    (hj : j < holeEdges.length) :
    (changePolyFaceHoleOrientation holeEdges).length = holeEdges.length ∧
    (changePolyFaceHoleOrientation holeEdges).getD j 0 =
      -(holeEdges.getD (holeEdges.length - 1 - j) 0 + 1) := by
  constructor
  · simp [changePolyFaceHoleOrientation]
  · have hj1 : j < (changePolyFaceHoleOrientation holeEdges).length := by
      simpa [changePolyFaceHoleOrientation] using hj
    have hj2 : j < holeEdges.reverse.length := by simpa using hj
    have hj3 : holeEdges.length - 1 - j < holeEdges.length := by omega
    rw [List.getD_eq_getElem _ _ hj1, List.getD_eq_getElem _ _ hj3]
    simp only [changePolyFaceHoleOrientation, List.getElem_map, List.getElem_reverse]
    ring

/-- Witness for C2 at a concrete input. -/
theorem changePolyFaceHoleOrientation_entry_witness :
    (1 : Nat) < ([0, 1, -3, 2] : List Int).length ∧
    ((changePolyFaceHoleOrientation [0, 1, -3, 2]).length =
        ([0, 1, -3, 2] : List Int).length ∧
      (changePolyFaceHoleOrientation [0, 1, -3, 2]).getD 1 0 =
        -(([0, 1, -3, 2] : List Int).getD (([0, 1, -3, 2] : List Int).length - 1 - 1) 0 + 1)) :=
  ⟨by decide, changePolyFaceHoleOrientation_entry [0, 1, -3, 2] 1 (by decide)⟩

/-- Claim C10: the hole flip is an involution: reversing the edge order and
toggling every sign twice yields the original hole edge list. -/
theorem changePolyFaceHoleOrientation_involution (holeEdges : List Int) :
    changePolyFaceHoleOrientation (changePolyFaceHoleOrientation holeEdges) = holeEdges := by
  simp only [changePolyFaceHoleOrientation, List.map_reverse, List.reverse_reverse,
    List.map_map]
  have hid : ((fun edgeIndexValue : Int => (edgeIndexValue + 1) * (-1)) ∘
      (fun edgeIndexValue : Int => (edgeIndexValue + 1) * (-1))) = id := by
    funext v
    simp only [Function.comp_apply, id_eq]
    ring
  rw [hid, List.map_id]

/-- Claim C3: for an edge `(a, b)` whose undirected pair is stored in the
edge-index map with index `i`, `getEdgeIndex` yields the signed reference
`+i` when the queried direction matches the stored one and `-(i+1)` when it
is the reverse. -/
theorem getEdgeIndex_present_signed (edgeIndicesMap : List ((Nat × Nat) × Nat))
    (a b i : Nat) (h : edgeMapFind edgeIndicesMap (edgeCanonical a b) = some i) :
    (edgeIsReverse a b = false → getEdgeIndex edgeIndicesMap a b = some ((i : Nat) : Int)) ∧
    (edgeIsReverse a b = true → getEdgeIndex edgeIndicesMap a b = some (-(((i : Nat) : Int) + 1))) := by
  unfold getEdgeIndex
  rw [h]
  constructor <;> intro hr <;> simp [hr]

/-- Witness for C3 at a concrete input: the map stores the undirected edge
`{2, 3}` as `(2, 3)` with index 1; querying the reversed direction `(3, 2)`
yields `-(1+1) = -2`. -/
theorem getEdgeIndex_present_signed_witness :
    edgeMapFind [((1, 2), 0), ((2, 3), 1)] (edgeCanonical 3 2) = some 1 ∧
    ((edgeIsReverse 3 2 = false →
        getEdgeIndex [((1, 2), 0), ((2, 3), 1)] 3 2 = some (((1 : Nat) : Int))) ∧
      (edgeIsReverse 3 2 = true →
        getEdgeIndex [((1, 2), 0), ((2, 3), 1)] 3 2 = some (-(((1 : Nat) : Int) + 1)))) :=
  ⟨by decide, getEdgeIndex_present_signed [((1, 2), 0), ((2, 3), 1)] 3 2 1 (by decide)⟩

/-- Claim C9: querying an edge whose undirected pair was never inserted into
the edge-index map is a fatal internal-consistency error: no signed edge
reference is produced, and no boundary containing such an edge resolves to
an emitted face. -/
theorem getEdgeIndex_missing_fatal (edgeIndicesMap : List ((Nat × Nat) × Nat))
    (a b : Nat) (h : edgeMapFind edgeIndicesMap (edgeCanonical a b) = none) :
    getEdgeIndex edgeIndicesMap a b = none ∧
    ∀ pre post, resolveFaceEdges edgeIndicesMap (pre ++ (a, b) :: post) = none := by
  have hnone : getEdgeIndex edgeIndicesMap a b = none := by
    unfold getEdgeIndex
    rw [h]
  refine ⟨hnone, ?_⟩
  intro pre post
  induction pre with
  | nil => simp [resolveFaceEdges, hnone]
  | cons e rest ih =>
    rw [List.cons_append]
    unfold resolveFaceEdges
    rw [ih]
    cases getEdgeIndex edgeIndicesMap e.fst e.snd <;> rfl

/-- Witness for C9 at a concrete input: edge `(5, 7)` was never inserted, so
its lookup produces no reference and the face `[(1, 2), (5, 7)]` is not
emitted. -/
theorem getEdgeIndex_missing_fatal_witness :
    edgeMapFind [((1, 2), 0)] (edgeCanonical 5 7) = none ∧
    getEdgeIndex [((1, 2), 0)] 5 7 = none ∧
    resolveFaceEdges [((1, 2), 0)] ([(1, 2)] ++ (5, 7) :: []) = none :=
  ⟨by decide, (getEdgeIndex_missing_fatal [((1, 2), 0)] 5 7 (by decide)).1,
    (getEdgeIndex_missing_fatal [((1, 2), 0)] 5 7 (by decide)).2 [(1, 2)] []⟩

/-- Claim C7: a geometry referenced by `n ≥ 1` scene transform nodes is
emitted once in full (for the first occurrence) and as `n-1` reference
connections for the remaining occurrences, and a geometry whose unique id
already has an emitted mesh node produces nothing at all. -/
theorem importGeometry_primary_secondary (transformNodes : List Nat)
    (h : 1 ≤ transformNodes.length) :
    (importGeometry false transformNodes).length = transformNodes.length ∧
    (importGeometry false transformNodes).count MeshEmission.primaryEmission = 1 ∧
    (importGeometry false transformNodes).count MeshEmission.secondaryReference =
      transformNodes.length - 1 ∧
    (importGeometry false transformNodes).head? = some MeshEmission.primaryEmission ∧
    importGeometry true transformNodes = [] := by
  obtain ⟨t, rest, rfl⟩ : ∃ t rest, transformNodes = t :: rest := by
    cases transformNodes with
    | nil => simp at h
    | cons t rest => exact ⟨t, rest, rfl⟩
  refine ⟨by simp [importGeometry, importMesh], ?_, ?_, by simp [importGeometry, importMesh],
    by simp [importGeometry]⟩
  · simp [importGeometry, importMesh, List.map_const', List.count_cons, List.count_replicate]
  · simp [importGeometry, importMesh, List.map_const', List.count_cons, List.count_replicate]

/-- Witness for C7 at a concrete input: three scene instances give one
primary emission followed by two secondary references. -/
theorem importGeometry_primary_secondary_witness :
    1 ≤ ([10, 20, 30] : List Nat).length ∧
    ((importGeometry false [10, 20, 30]).length = ([10, 20, 30] : List Nat).length ∧
      (importGeometry false [10, 20, 30]).count MeshEmission.primaryEmission = 1 ∧
      (importGeometry false [10, 20, 30]).count MeshEmission.secondaryReference =
        ([10, 20, 30] : List Nat).length - 1 ∧
      (importGeometry false [10, 20, 30]).head? = some MeshEmission.primaryEmission ∧
      importGeometry true [10, 20, 30] = []) :=
  ⟨by decide, importGeometry_primary_secondary [10, 20, 30] (by decide)⟩

/-- Closed form of the object-group inner loop: the range of primitive `i`
starts at the running sum of the earlier primitives' face counts and ends at
`count - 1 + start`. -/
theorem objectGroupRanges_eq_map_range (counts : List Nat) : ∀ init : Nat,
    objectGroupRanges init counts = (List.range counts.length).map (fun i =>
      (init + (counts.take i).sum,
       counts.getD i 0 - 1 + (init + (counts.take i).sum))) := by
  induction counts with
  | nil => intro init; simp [objectGroupRanges]
  | cons c rest ih =>
    intro init
    simp only [objectGroupRanges, ih (init + c), List.length_cons, List.range_succ_eq_map,
      List.map_cons, List.map_map]
    have htail :
        List.map (fun i =>
            (init + c + (rest.take i).sum,
             rest.getD i 0 - 1 + (init + c + (rest.take i).sum))) (List.range rest.length) =
        List.map ((fun i =>
            (init + ((c :: rest).take i).sum,
             (c :: rest).getD i 0 - 1 + (init + ((c :: rest).take i).sum))) ∘ Nat.succ)
          (List.range rest.length) := by
      apply List.map_congr_left
      intro i _
      simp only [Function.comp_apply, List.take_succ_cons, List.sum_cons, List.getD_cons_succ,
        Prod.mk.injEq]
      omega
    rw [htail]
    simp

/-- Claim C8: with at most one primitive no object-group partition and no
group nodes are produced; with `m > 1` primitives, every instance
occurrence receives a partition of `m` contiguous non-overlapping face
ranges in primitive order, the first starting at face index 0, each
subsequent range starting where the previous one ended, the `i`-th range
as long as primitive `i`'s grouped-vertex-elements count, and one group-id
assignment per primitive. -/
theorem writeObjectGroups_partition (counts : List Nat) (numNodeInstances : Nat)
    (geometryInstanceIndex : Nat) (hpos : ∀ c ∈ counts, 0 < c) :
    (counts.length ≤ 1 → writeObjectGroups counts numNodeInstances = [] ∧
        createGroupNodes counts.length geometryInstanceIndex = []) ∧
    (1 < counts.length →
      (writeObjectGroups counts numNodeInstances).length = numNodeInstances ∧
      (createGroupNodes counts.length geometryInstanceIndex).length = counts.length ∧
      ∀ g ∈ writeObjectGroups counts numNodeInstances,
        g.length = counts.length ∧
        (g.getD 0 (0, 0)).fst = 0 ∧
        (∀ i, i + 1 < counts.length →
          (g.getD (i + 1) (0, 0)).fst = (g.getD i (0, 0)).snd + 1) ∧
        (∀ i, i < counts.length →
          (g.getD i (0, 0)).snd + 1 - (g.getD i (0, 0)).fst = counts.getD i 0)) := by
  have hgetD : ∀ (f : Nat → Nat × Nat) (n i : Nat), i < n →
      ((List.range n).map f).getD i (0, 0) = f i := by
    intro f n i hi
    rw [List.getD_eq_getElem _ _ (by simpa using hi)]
    simp [hi]
  have hcnt : ∀ i, i < counts.length → 0 < counts.getD i 0 := by
    intro i hi
    rw [List.getD_eq_getElem _ _ hi]
    exact hpos _ (List.getElem_mem hi)
  have hsum : ∀ i, i < counts.length →
      (counts.take (i + 1)).sum = (counts.take i).sum + counts.getD i 0 := by
    intro i hi
    rw [List.getD_eq_getElem _ _ hi, List.sum_take_succ _ _ hi]
  constructor
  · intro hle
    constructor
    · unfold writeObjectGroups
      rw [if_pos hle]
    · unfold createGroupNodes
      rw [if_pos hle]
  · intro hgt
    have hif : ¬ (counts.length ≤ 1) := by omega
    refine ⟨?_, ?_, ?_⟩
    · unfold writeObjectGroups
      rw [if_neg hif]
      simp
    · unfold createGroupNodes
      rw [if_neg hif]
      simp
    · intro g hg
      unfold writeObjectGroups at hg
      rw [if_neg hif] at hg
      simp only [List.mem_map] at hg
      obtain ⟨j, _, rfl⟩ := hg
      rw [objectGroupRanges_eq_map_range]
      refine ⟨by simp, ?_, ?_, ?_⟩
      · rw [hgetD _ _ _ (by omega)]
        simp
      · intro i hi
        rw [hgetD _ _ _ (by omega), hgetD _ _ _ (by omega)]
        have h1 := hsum i (by omega)
        have h2 := hcnt i (by omega)
        simp only []
        omega
      · intro i hi
        rw [hgetD _ _ _ hi]
        have h2 := hcnt i hi
        simp only []
        omega

/-- Witness for C8 at a concrete input: two primitives with 4 and 3 faces,
two instances. -/
theorem writeObjectGroups_partition_witness :
    (∀ c ∈ ([4, 3] : List Nat), 0 < c) ∧
    ((([4, 3] : List Nat).length ≤ 1 → writeObjectGroups [4, 3] 2 = [] ∧
        createGroupNodes ([4, 3] : List Nat).length 0 = []) ∧
      (1 < ([4, 3] : List Nat).length →
        (writeObjectGroups [4, 3] 2).length = 2 ∧
        (createGroupNodes ([4, 3] : List Nat).length 0).length = ([4, 3] : List Nat).length ∧
        ∀ g ∈ writeObjectGroups [4, 3] 2,
          g.length = ([4, 3] : List Nat).length ∧
          (g.getD 0 (0, 0)).fst = 0 ∧
          (∀ i, i + 1 < ([4, 3] : List Nat).length →
            (g.getD (i + 1) (0, 0)).fst = (g.getD i (0, 0)).snd + 1) ∧
          (∀ i, i < ([4, 3] : List Nat).length →
            (g.getD i (0, 0)).snd + 1 - (g.getD i (0, 0)).fst =
              ([4, 3] : List Nat).getD i 0))) :=
  ⟨by decide, writeObjectGroups_partition [4, 3] 2 0 (by decide)⟩

/-- Indexing helper: the `i`-th entry of a list built by mapping over
`List.range n` is the function value at `i`. -/
theorem getD_map_range {α : Type} (f : Nat → α) (n i : Nat) (d : α) (hi : i < n) :
    ((List.range n).map f).getD i d = f i := by
  rw [List.getD_eq_getElem _ _ (by simpa using hi)]
  simp [hi]

/-- One triangle of the fan edge loop: three iterations starting at
`triangleEdgeCounter = 0` emit one face whose edges run apex → current →
next → apex, advance `positionIndex` by one net, and advance both attribute
cursors by one net (3 inside the slicer, 2 rewound). -/
theorem trifanEdgeLoop_step (positionIndices : List Nat) (n : Nat) (st : PolyFacesState) :
    trifanEdgeLoop positionIndices (n + 3) 0 [] st =
    trifanEdgeLoop positionIndices n 0 []
      { positionIndex := st.positionIndex + 1,
        initialPositionIndex := st.initialPositionIndex,
        uvSetIndicesIndex := st.uvSetIndicesIndex + 1,
        colorIndicesIndex := st.colorIndicesIndex + 1,
        faces := st.faces ++
          [⟨[(positionIndices.getD st.initialPositionIndex 0,
              positionIndices.getD (st.positionIndex + 1) 0),
             (positionIndices.getD (st.positionIndex + 1) 0,
              positionIndices.getD (st.positionIndex + 2) 0),
             (positionIndices.getD (st.positionIndex + 2) 0,
              positionIndices.getD st.initialPositionIndex 0)],
            st.uvSetIndicesIndex, st.colorIndicesIndex⟩] } := by
  show trifanEdgeLoop positionIndices ((n + 2) + 1) 0 [] st = _
  rw [trifanEdgeLoop]
  norm_num
  rw [trifanEdgeLoop]
  norm_num
  rw [trifanEdgeLoop]
  norm_num
  rfl

/-- Closed form of the fan edge loop over `t` complete triangles. -/
theorem trifanEdgeLoop_triangles (positionIndices : List Nat) (t : Nat) :
    ∀ st : PolyFacesState,
    trifanEdgeLoop positionIndices (3 * t) 0 [] st =
      { positionIndex := st.positionIndex + t,
        initialPositionIndex := st.initialPositionIndex,
        uvSetIndicesIndex := st.uvSetIndicesIndex + t,
        colorIndicesIndex := st.colorIndicesIndex + t,
        faces := st.faces ++ (List.range t).map (fun j =>
          ⟨[(positionIndices.getD st.initialPositionIndex 0,
             positionIndices.getD (st.positionIndex + j + 1) 0),
            (positionIndices.getD (st.positionIndex + j + 1) 0,
             positionIndices.getD (st.positionIndex + j + 2) 0),
            (positionIndices.getD (st.positionIndex + j + 2) 0,
             positionIndices.getD st.initialPositionIndex 0)],
           st.uvSetIndicesIndex + j, st.colorIndicesIndex + j⟩) } := by
  induction t with
  | zero =>
    intro st
    simp [trifanEdgeLoop]
  | succ t ih =>
    intro st
    have h3 : 3 * (t + 1) = 3 * t + 3 := by ring
    rw [h3, trifanEdgeLoop_step, ih]
    simp only [PolyFacesState.mk.injEq]
    refine ⟨by omega, trivial, by omega, by omega, ?_⟩
    rw [List.append_assoc, List.singleton_append, List.range_succ_eq_map, List.map_cons,
      List.map_map]
    congr 1
    norm_num
    intro j hj
    have e1 : st.positionIndex + 1 + j + 1 = st.positionIndex + (j + 1) + 1 := by omega
    have e2 : st.positionIndex + 1 + j + 2 = st.positionIndex + (j + 1) + 2 := by omega
    rw [e1, e2]
    refine ⟨⟨rfl, rfl⟩, by omega, by omega⟩

/-- Claim C4: a triangle-fan group of `k ≥ 3` vertices decodes to exactly
`k-2` faces, each an independent 3-edge triangle (the fan path never writes
hole data), the `i`-th (0-based) having edges
`{v0 → v[i+1]}`, `{v[i+1] → v[i+2]}`, `{v[i+2] → v0}` with the group's
first vertex as common apex. -/
theorem appendTrifansPolyFaces_fan_decode (positionIndices : List Nat) (k : Nat)
    (hk : 3 ≤ k) :
    (appendTrifansPolyFaces positionIndices [k]).faces =
      (List.range (k - 2)).map (fun i =>
        ⟨[(positionIndices.getD 0 0, positionIndices.getD (i + 1) 0),
          (positionIndices.getD (i + 1) 0, positionIndices.getD (i + 2) 0),
          (positionIndices.getD (i + 2) 0, positionIndices.getD 0 0)],
         i, i⟩) ∧
    (appendTrifansPolyFaces positionIndices [k]).faces.length = k - 2 := by
  have hne : (k - 3) * 3 + 3 = 3 * (k - 2) := by omega
  have hfaces : (appendTrifansPolyFaces positionIndices [k]).faces =
      (List.range (k - 2)).map (fun i =>
        ⟨[(positionIndices.getD 0 0, positionIndices.getD (i + 1) 0),
          (positionIndices.getD (i + 1) 0, positionIndices.getD (i + 2) 0),
          (positionIndices.getD (i + 2) 0, positionIndices.getD 0 0)],
         i, i⟩) := by
    unfold appendTrifansPolyFaces
    simp only [List.foldl_cons, List.foldl_nil]
    rw [hne, trifanEdgeLoop_triangles]
    simp
  exact ⟨hfaces, by rw [hfaces]; simp⟩

/-- Witness for C4 at a concrete input: the fan `[0, 1, 2, 3, 4]` (`k = 5`)
decodes to exactly 3 triangle faces. -/
theorem appendTrifansPolyFaces_fan_decode_witness :
    3 ≤ 5 ∧
    ((appendTrifansPolyFaces [0, 1, 2, 3, 4] [5]).faces =
        (List.range (5 - 2)).map (fun i =>
          ⟨[(([0, 1, 2, 3, 4] : List Nat).getD 0 0,
             ([0, 1, 2, 3, 4] : List Nat).getD (i + 1) 0),
            (([0, 1, 2, 3, 4] : List Nat).getD (i + 1) 0,
             ([0, 1, 2, 3, 4] : List Nat).getD (i + 2) 0),
            (([0, 1, 2, 3, 4] : List Nat).getD (i + 2) 0,
             ([0, 1, 2, 3, 4] : List Nat).getD 0 0)],
           i, i⟩) ∧
      (appendTrifansPolyFaces [0, 1, 2, 3, 4] [5]).faces.length = 5 - 2) :=
  ⟨by decide, appendTrifansPolyFaces_fan_decode [0, 1, 2, 3, 4] 5 (by decide)⟩

/-- One triangle of the strip edge loop, started from a state whose
`initialPositionIndex` equals `positionIndex` (which the strip loop
maintains after every reset and every group boundary). -/
theorem tristripEdgeLoop_step (positionIndices : List Nat) (n : Nat) (p u c : Nat)
    (fs : List TriFace) :
    tristripEdgeLoop positionIndices (n + 3) 0 [] ⟨p, p, u, c, fs⟩ =
    tristripEdgeLoop positionIndices n 0 [] ⟨p + 1, p + 1, u + 1, c + 1,
      fs ++ [⟨[(positionIndices.getD p 0, positionIndices.getD (p + 1) 0),
               (positionIndices.getD (p + 1) 0, positionIndices.getD (p + 2) 0),
               (positionIndices.getD (p + 2) 0, positionIndices.getD p 0)], u, c⟩]⟩ := by
  show tristripEdgeLoop positionIndices ((n + 2) + 1) 0 [] _ = _
  rw [tristripEdgeLoop]
  norm_num
  rw [tristripEdgeLoop]
  norm_num
  rw [tristripEdgeLoop]
  norm_num
  rfl

/-- Closed form of the strip edge loop over `t` complete triangles. -/
theorem tristripEdgeLoop_triangles (positionIndices : List Nat) (t : Nat) :
    ∀ (p u c : Nat) (fs : List TriFace),
    tristripEdgeLoop positionIndices (3 * t) 0 [] ⟨p, p, u, c, fs⟩ =
      ⟨p + t, p + t, u + t, c + t, fs ++ (List.range t).map (fun j =>
        ⟨[(positionIndices.getD (p + j) 0, positionIndices.getD (p + j + 1) 0),
          (positionIndices.getD (p + j + 1) 0, positionIndices.getD (p + j + 2) 0),
          (positionIndices.getD (p + j + 2) 0, positionIndices.getD (p + j) 0)],
         u + j, c + j⟩)⟩ := by
  induction t with
  | zero =>
    intro p u c fs
    simp [tristripEdgeLoop]
  | succ t ih =>
    intro p u c fs
    have h3 : 3 * (t + 1) = 3 * t + 3 := by ring
    rw [h3, tristripEdgeLoop_step, ih]
    simp only [PolyFacesState.mk.injEq]
    refine ⟨by omega, by omega, by omega, by omega, ?_⟩
    rw [List.append_assoc, List.singleton_append, List.range_succ_eq_map, List.map_cons,
      List.map_map]
    congr 1
    norm_num
    intro j hj
    have e0 : p + 1 + j = p + (j + 1) := by omega
    rw [e0]
    refine ⟨by simp, by omega, by omega⟩

/-- Claim C5: a triangle-strip group of `k ≥ 3` vertices decodes to exactly
`k-2` triangle faces, the `i`-th formed from the 3-vertex window
`(v[i], v[i+1], v[i+2])` in strip order, and each triangle shares an edge
with its predecessor (its first edge is its predecessor's second edge). -/
theorem appendTristripsPolyFaces_strip_decode (positionIndices : List Nat) (k : Nat)
    (hk : 3 ≤ k) :
    (appendTristripsPolyFaces positionIndices [k]).faces =
      (List.range (k - 2)).map (fun i =>
        ⟨[(positionIndices.getD i 0, positionIndices.getD (i + 1) 0),
          (positionIndices.getD (i + 1) 0, positionIndices.getD (i + 2) 0),
          (positionIndices.getD (i + 2) 0, positionIndices.getD i 0)],
         i, i⟩) ∧
    (appendTristripsPolyFaces positionIndices [k]).faces.length = k - 2 ∧
    (∀ i, i + 1 < k - 2 →
      (((appendTristripsPolyFaces positionIndices [k]).faces.getD (i + 1)
          ⟨[], 0, 0⟩).edges.getD 0 (0, 0)) =
      (((appendTristripsPolyFaces positionIndices [k]).faces.getD i
          ⟨[], 0, 0⟩).edges.getD 1 (0, 0))) := by
  have hne : (k - 3) * 3 + 3 = 3 * (k - 2) := by omega
  have hfaces : (appendTristripsPolyFaces positionIndices [k]).faces =
      (List.range (k - 2)).map (fun i =>
        ⟨[(positionIndices.getD i 0, positionIndices.getD (i + 1) 0),
          (positionIndices.getD (i + 1) 0, positionIndices.getD (i + 2) 0),
          (positionIndices.getD (i + 2) 0, positionIndices.getD i 0)],
         i, i⟩) := by
    unfold appendTristripsPolyFaces
    simp only [List.foldl_cons, List.foldl_nil]
    rw [hne, tristripEdgeLoop_triangles]
    simp
  refine ⟨hfaces, by rw [hfaces]; simp, ?_⟩
  intro i hi
  rw [hfaces, getD_map_range _ _ _ _ (by omega), getD_map_range _ _ _ _ (by omega)]
  rfl

/-- Witness for C5 at a concrete input: the strip `[0, 1, 2, 3]` (`k = 4`)
decodes to exactly 2 triangles sharing the edge `(1, 2)`. -/
theorem appendTristripsPolyFaces_strip_decode_witness :
    3 ≤ 4 ∧
    ((appendTristripsPolyFaces [0, 1, 2, 3] [4]).faces =
        (List.range (4 - 2)).map (fun i =>
          ⟨[(([0, 1, 2, 3] : List Nat).getD i 0, ([0, 1, 2, 3] : List Nat).getD (i + 1) 0),
            (([0, 1, 2, 3] : List Nat).getD (i + 1) 0,
             ([0, 1, 2, 3] : List Nat).getD (i + 2) 0),
            (([0, 1, 2, 3] : List Nat).getD (i + 2) 0, ([0, 1, 2, 3] : List Nat).getD i 0)],
           i, i⟩) ∧
      (appendTristripsPolyFaces [0, 1, 2, 3] [4]).faces.length = 4 - 2 ∧
      (∀ i, i + 1 < 4 - 2 →
        (((appendTristripsPolyFaces [0, 1, 2, 3] [4]).faces.getD (i + 1)
            ⟨[], 0, 0⟩).edges.getD 0 (0, 0)) =
        (((appendTristripsPolyFaces [0, 1, 2, 3] [4]).faces.getD i
            ⟨[], 0, 0⟩).edges.getD 1 (0, 0)))) :=
  ⟨by decide, appendTristripsPolyFaces_strip_decode [0, 1, 2, 3] 4 (by decide)⟩

/-- In the regular range (initial index at most the raw index, raw index
below `2^31`) the machine-arithmetic adjusted attribute index is the plain
subtraction `raw - initial`. -/
theorem uvIdValue_eq_sub (r init : Nat) (h1 : init ≤ r) (h2 : r < 2 ^ 31) :
    uvIdValue r init = (r : Int) - (init : Int) := by
  unfold uvIdValue toSigned32
  have hm : (r % 2 ^ 64 + (2 ^ 64 - init % 2 ^ 64)) % 2 ^ 64 = r - init := by omega
  rw [hm]
  have hm2 : (r - init) % 2 ^ 32 = r - init := Nat.mod_eq_of_lt (by omega)
  rw [hm2, if_pos (by omega)]
  have := Nat.cast_sub (R := Int) h1
  omega

/-- Claim C6, amended to the code's actual cursor arithmetic: each slicer
call returns the next `count` raw indices of the channel's stream, each
reduced by the stream's declared initial index, and advances the shared
cursor by exactly `count`; but the fan and strip decoders rewind the cursor
by 2 after every emitted triangle, so within a group the `i`-th triangle's
slice starts at offset `i` (consecutive triangle slices overlap in two
entries) rather than at `3*i`; a fan group boundary then advances the
cursor by 2 (to the group's total vertex count `k`), while a strip group
boundary decrements it by 2 in wrapping `size_t` arithmetic (to `k - 4`
when `k ≥ 4`). -/
theorem uvCursor_behavior_amended
    (uvSets : List IndexList) (il : IndexList) (cursor numEdges : Nat)
    (positionIndices : List Nat) (k : Nat)
    (hk : 3 ≤ k)
    (hlen : cursor + numEdges ≤ il.indices.length)
    (hvals : ∀ r ∈ il.indices, il.initialIndex ≤ r ∧ r < 2 ^ 31) :
    (setUVSetInfos uvSets cursor numEdges).snd = cursor + numEdges ∧
    (setUVSetInfos [il] cursor numEdges).fst =
      [((il.indices.drop cursor).take numEdges).map
          (fun r : Nat => (r : Int) - (il.initialIndex : Int))] ∧
    (appendTrifansPolyFaces positionIndices [k]).faces.map (fun f => f.uvStart) =
      List.range (k - 2) ∧
    (appendTristripsPolyFaces positionIndices [k]).faces.map (fun f => f.uvStart) =
      List.range (k - 2) ∧
    (appendTrifansPolyFaces positionIndices [k]).uvSetIndicesIndex = k ∧
    (appendTristripsPolyFaces positionIndices [k]).uvSetIndicesIndex = sizeTSub2 (k - 2) ∧
    (4 ≤ k → k < 2 ^ 64 →
      (appendTristripsPolyFaces positionIndices [k]).uvSetIndicesIndex = k - 4) := by
  have hne : (k - 3) * 3 + 3 = 3 * (k - 2) := by omega
  refine ⟨rfl, ?_, ?_, ?_, ?_, ?_, ?_⟩
  · simp only [setUVSetInfos, List.map_cons, List.map_nil]
    congr 1
    apply List.ext_getElem
    · rw [List.length_map, List.length_range, List.length_map, List.length_take,
        List.length_drop]
      omega
    · intro i hi1 hi2
      have hi : i < numEdges := by
        rw [List.length_map, List.length_range] at hi1
        exact hi1
      have hidx : i + cursor < il.indices.length := by omega
      rw [List.getElem_map, List.getElem_map, List.getElem_range, List.getElem_take,
        List.getElem_drop, List.getD_eq_getElem _ _ hidx]
      have hic : i + cursor = cursor + i := by omega
      have hmem : il.indices[cursor + i] ∈ il.indices := List.getElem_mem (by omega)
      obtain ⟨hv1, hv2⟩ := hvals _ hmem
      simp only [hic]
      exact uvIdValue_eq_sub _ _ hv1 hv2
  · unfold appendTrifansPolyFaces
    simp only [List.foldl_cons, List.foldl_nil]
    rw [hne, trifanEdgeLoop_triangles]
    simp only [List.map_map, List.nil_append]
    show List.map (fun j => 0 + j) (List.range (k - 2)) = List.range (k - 2)
    simp only [Nat.zero_add]
    exact List.map_id' _
  · unfold appendTristripsPolyFaces
    simp only [List.foldl_cons, List.foldl_nil]
    rw [hne, tristripEdgeLoop_triangles]
    simp only [List.map_map, List.nil_append]
    show List.map (fun j => 0 + j) (List.range (k - 2)) = List.range (k - 2)
    simp only [Nat.zero_add]
    exact List.map_id' _
  · unfold appendTrifansPolyFaces
    simp only [List.foldl_cons, List.foldl_nil]
    rw [hne, trifanEdgeLoop_triangles]
    show 0 + (k - 2) + 2 = k
    omega
  · unfold appendTristripsPolyFaces
    simp only [List.foldl_cons, List.foldl_nil]
    rw [hne, tristripEdgeLoop_triangles]
    show sizeTSub2 (0 + (k - 2)) = sizeTSub2 (k - 2)
    norm_num
  · intro h4 h64
    unfold appendTristripsPolyFaces
    simp only [List.foldl_cons, List.foldl_nil]
    rw [hne, tristripEdgeLoop_triangles]
    show sizeTSub2 (0 + (k - 2)) = k - 4
    unfold sizeTSub2
    omega

/-- Witness for the amended C6 at a concrete input. -/
theorem uvCursor_behavior_amended_witness :
    3 ≤ 4 ∧ 0 + 3 ≤ (IndexList.mk [5, 6, 7, 8] 5).indices.length ∧
    (∀ r ∈ (IndexList.mk [5, 6, 7, 8] 5).indices,
      (IndexList.mk [5, 6, 7, 8] 5).initialIndex ≤ r ∧ r < 2 ^ 31) ∧
    ((setUVSetInfos [IndexList.mk [5, 6, 7, 8] 5] 0 3).snd = 0 + 3 ∧
      (setUVSetInfos [IndexList.mk [5, 6, 7, 8] 5] 0 3).fst =
        [(((IndexList.mk [5, 6, 7, 8] 5).indices.drop 0).take 3).map
            (fun r : Nat => (r : Int) - ((IndexList.mk [5, 6, 7, 8] 5).initialIndex : Int))] ∧
      (appendTrifansPolyFaces [0, 1, 2, 3] [4]).faces.map (fun f => f.uvStart) =
        List.range (4 - 2) ∧
      (appendTristripsPolyFaces [0, 1, 2, 3] [4]).faces.map (fun f => f.uvStart) =
        List.range (4 - 2) ∧
      (appendTrifansPolyFaces [0, 1, 2, 3] [4]).uvSetIndicesIndex = 4 ∧
      (appendTristripsPolyFaces [0, 1, 2, 3] [4]).uvSetIndicesIndex = sizeTSub2 (4 - 2) ∧
      (4 ≤ 4 → 4 < 2 ^ 64 →
        (appendTristripsPolyFaces [0, 1, 2, 3] [4]).uvSetIndicesIndex = 4 - 4)) :=
  ⟨by decide, by decide, by decide,
    uvCursor_behavior_amended [IndexList.mk [5, 6, 7, 8] 5] (IndexList.mk [5, 6, 7, 8] 5)
      0 3 [0, 1, 2, 3] 4 (by decide) (by decide) (by decide)⟩

/-- Counterexample to C6 as stated: in the fan decode of the group
`[0, 1, 2, 3]` the two consecutive triangles' uv slices start at cursor
values 0 and 1 — not 0 and 3 — so the cursor does not advance by the
face's count between consecutive faces, and the second slice
`[11, 12, 13]` overlaps the first slice `[10, 11, 12]` in two entries. -/
theorem uvCursor_overlap_counterexample :
    (appendTrifansPolyFaces [0, 1, 2, 3] [4]).faces.map (fun f => f.uvStart) = [0, 1] ∧
    ((appendTrifansPolyFaces [0, 1, 2, 3] [4]).faces.getD 1 ⟨[], 0, 0⟩).uvStart ≠
      ((appendTrifansPolyFaces [0, 1, 2, 3] [4]).faces.getD 0 ⟨[], 0, 0⟩).uvStart + 3 ∧
    (setUVSetInfos [⟨[10, 11, 12, 13], 0⟩] 0 3).fst = [[10, 11, 12]] ∧
    (setUVSetInfos [⟨[10, 11, 12, 13], 0⟩] 1 3).fst = [[11, 12, 13]] := by
  decide
